import Mathlib

/-!
Verification of the ODE stepper core of `Chapter_6/ODEs.py`.

States are 1-D numpy arrays of reals; we embed them as `List ℚ` (exact
arithmetic, no floating point).  Numpy elementwise addition of two 1-D
arrays succeeds when the lengths agree, broadcasts when one operand has
length 1, and raises otherwise; we embed it as the `Option`-valued `addV`.
Scalar multiplication and division map over the array and never fail.
-/

namespace ODEs

/-- A state vector: 1-D numpy array embedded as a list of rationals. -/
abbrev Vec := List ℚ

/-- A derivative function `derivs(y, t)`, as supplied to the steppers. -/
abbrev DerivFn := Vec → ℚ → Vec

/-- Numpy `v * c` (array times scalar): elementwise, any length. -/
def mulS (v : Vec) (c : ℚ) : Vec := v.map (fun a => a * c)

/-- Numpy `c * v` (scalar times array): elementwise, any length. -/
def smulV (c : ℚ) (v : Vec) : Vec := v.map (fun a => c * a)

/-- Numpy `v / c` (array divided by scalar): elementwise, any length. -/
def divS (v : Vec) (c : ℚ) : Vec := v.map (fun a => a / c)

/-- Numpy `a + b` on 1-D arrays: elementwise when the lengths agree,
broadcast when one operand has length 1, error (`none`) otherwise. -/
def addV (a b : Vec) : Option Vec :=
  if a.length = b.length then some (List.zipWith (fun x y => x + y) a b)
  else if a.length = 1 then some (b.map (fun y => a.headI + y))
  else if b.length = 1 then some (a.map (fun x => x + b.headI))
  else none

/-- Total elementwise addition (the mathematical `a + b` on equal-length
vectors); used to state what the steppers compute when dimensions agree. -/
def vadd (a b : Vec) : Vec := List.zipWith (fun x y => x + y) a b

/-- Source function `Euler(y, t, dt, derivs)`:
`y_next = y + derivs(y, t) * dt`. -/
def Euler (y : Vec) (t dt : ℚ) (derivs : DerivFn) : Option Vec :=
  addV y (mulS (derivs y t) dt)

/-- Source function `rk4(y, t, h, derivs)`, keeping its sequential shape:
`k1 = h*derivs(y,t)`; `y_halfstep = y + k1/2.`; `k2 = h*derivs(y_halfstep,
t+h/2)`; `y_halfstep = y + k2/2.`; `k3 = h*derivs(y_halfstep, t+h/2)`;
`k4 = h*derivs(y + k3, t+h)`; `y_next = y + (k1+2*k2+2*k3+k4)/6.`.
(The initial `np.zeros(2)` bindings of `k1..k4` are dead stores the next
lines overwrite, so they do not appear.) -/
def rk4 (y : Vec) (t h : ℚ) (derivs : DerivFn) : Option Vec := do
  let k1 := smulV h (derivs y t)
  let y_halfstep ← addV y (divS k1 2)
  let k2 := smulV h (derivs y_halfstep (t + h/2))
  let y_halfstep2 ← addV y (divS k2 2)
  let k3 := smulV h (derivs y_halfstep2 (t + h/2))
  let y_k3 ← addV y k3
  let k4 := smulV h (derivs y_k3 (t + h))
  let s1 ← addV k1 (smulV 2 k2)
  let s2 ← addV s1 (smulV 2 k3)
  let s3 ← addV s2 k4
  addV y (divS s3 6)

/-- Modelled from the spec: the chapter narrative of `ODEs.py` states the
second-order Runge-Kutta (midpoint) algorithm but the source contains no
rk2 implementation; this follows the spec pseudocode `k1 = h * f(y, t)`;
`y_mid = y + k1/2`; `k2 = h * f(y_mid, t + h/2)`; `y_next = y + k2`,
under the uniform stepper signature. -/
def rk2 (y : Vec) (t h : ℚ) (derivs : DerivFn) : Option Vec := do
  let k1 := smulV h (derivs y t)
  let y_mid ← addV y (divS k1 2)
  let k2 := smulV h (derivs y_mid (t + h/2))
  addV y k2

/-- The mathematical Euler formula `y + f(y,t)*h` (total, equal lengths). -/
def eulerFormula (y : Vec) (t h : ℚ) (f : DerivFn) : Vec :=
  vadd y (mulS (f y t) h)

/-- The mathematical rk2 formula `y + k2` with `k1 = h*f(y,t)`,
`k2 = h*f(y + k1/2, t + h/2)` (total, equal lengths). -/
def rk2Formula (y : Vec) (t h : ℚ) (f : DerivFn) : Vec :=
  let k1 := smulV h (f y t)
  let k2 := smulV h (f (vadd y (divS k1 2)) (t + h/2))
  vadd y k2

/-- The mathematical rk4 formula `y + (k1 + 2*k2 + 2*k3 + k4)/6` with
`k1 = h*f(y,t)`, `k2 = h*f(y + k1/2, t + h/2)`, `k3 = h*f(y + k2/2,
t + h/2)`, `k4 = h*f(y + k3, t + h)` (total, equal lengths). -/
def rk4Formula (y : Vec) (t h : ℚ) (f : DerivFn) : Vec :=
  let k1 := smulV h (f y t)
  let k2 := smulV h (f (vadd y (divS k1 2)) (t + h/2))
  let k3 := smulV h (f (vadd y (divS k2 2)) (t + h/2))
  let k4 := smulV h (f (vadd y k3) (t + h))
  vadd y (divS (vadd (vadd (vadd k1 (smulV 2 k2)) (smulV 2 k3)) k4) 6)

/-- Source function `deriv_freefall(y, t)`: `yprime = np.zeros(len(y))`;
`yprime[0] = y[1]`; `yprime[1] = -9.8`; `return yprime`. -/
def deriv_freefall (y : Vec) (t : ℚ) : Vec :=
  ((List.replicate y.length (0 : ℚ)).set 0 (y.getD 1 0)).set 1 (-49/5)

/-- The rk4 driver loop from the source (`states_rk4`): entry `0` is the
seeded initial state; entry `j+1` is `rk4(states_rk4[j], times[j], h, f)`
with `times[j] = j * h` (from `np.arange(0, tau+h, h)`, `h = tau/(N-1)`). -/
def rk4Traj (y0 : Vec) (h : ℚ) (f : DerivFn) : ℕ → Option Vec
  | 0 => some y0
  | j + 1 => (rk4Traj y0 h f j).bind (fun yj => rk4 yj (j * h) h f)

/-- The Euler driver loop from the source, as written: it seeds
`states_Euler[0] = [y_o, v_o]` but fills `states_Euler[j+1] =
Euler(states[j,:], times[j], h, SHO)`, reading a global array `states`
that is NOT the array this loop fills (and is never defined in the
script); `statesGlobal` stands for that foreign array. -/
def eulerLoopTraj (statesGlobal : ℕ → Vec) (y0 : Vec) (h : ℚ)
    (f : DerivFn) : ℕ → Option Vec
  | 0 => some y0
  | j + 1 => Euler (statesGlobal j) (j * h) h f

/-- Source function `SHO(x, time)` from the friction cell: `yp = np.zeros(2)`;
`yp[0] = x[1]`; `if yp[0] > 0: yp[1] = -k/m*x[0] - g*mu` `else: yp[1] =
-k/m*x[0] + g*mu`; `return yp`.  The module globals `k, m, g, mu`
(`42`, `0.25`, `9.8`, `0.15` in the source) are passed as parameters. -/
def SHO (k m g mu : ℚ) (x : Vec) (time : ℚ) : Vec :=
  let yp0 := x.getD 1 0
  if yp0 > 0 then [yp0, -k/m * x.getD 0 0 - g * mu]
  else [yp0, -k/m * x.getD 0 0 + g * mu]

lemma mulS_length (v : Vec) (c : ℚ) : (mulS v c).length = v.length :=
  List.length_map v _

lemma smulV_length (c : ℚ) (v : Vec) : (smulV c v).length = v.length :=
  List.length_map v _

lemma divS_length (v : Vec) (c : ℚ) : (divS v c).length = v.length :=
  List.length_map v _

lemma vadd_length (a b : Vec) (hab : a.length = b.length) :
    (vadd a b).length = a.length := by
  simp [vadd, List.length_zipWith, hab]

/-- When the lengths agree, numpy addition is plain elementwise addition. -/
lemma addV_of_length (a b : Vec) (hab : a.length = b.length) :
    addV a b = some (vadd a b) := by
  simp [addV, vadd, hab]

lemma eulerFormula_length (y : Vec) (t h : ℚ) (f : DerivFn)
    (hf : ∀ v s, (f v s).length = v.length) :
    (eulerFormula y t h f).length = y.length := by
  rw [eulerFormula, vadd_length]
  rw [mulS_length, hf]

/-- Under a dimension-preserving derivative function, `Euler` succeeds and
computes the Euler formula. -/
lemma Euler_run (y : Vec) (t h : ℚ) (f : DerivFn)
    (hf : ∀ v s, (f v s).length = v.length) :
    Euler y t h f = some (eulerFormula y t h f) := by
  rw [Euler, eulerFormula, addV_of_length]
  rw [mulS_length, hf]

lemma rk2Formula_length (y : Vec) (t h : ℚ) (f : DerivFn)
    (hf : ∀ v s, (f v s).length = v.length) :
    (rk2Formula y t h f).length = y.length := by
  rw [rk2Formula, vadd_length]
  rw [smulV_length, hf, vadd_length]
  rw [divS_length, smulV_length, hf]

/-- Under a dimension-preserving derivative function, `rk2` succeeds and
computes the rk2 midpoint formula. -/
lemma rk2_run (y : Vec) (t h : ℚ) (f : DerivFn)
    (hf : ∀ v s, (f v s).length = v.length) :
    rk2 y t h f = some (rk2Formula y t h f) := by
  have l1 : (divS (smulV h (f y t)) 2).length = y.length := by
    rw [divS_length, smulV_length, hf]
  rw [rk2, addV_of_length _ _ l1.symm]
  show addV y (smulV h (f (vadd y (divS (smulV h (f y t)) 2)) (t + h / 2)))
      = some (rk2Formula y t h f)
  rw [rk2Formula, addV_of_length]
  rw [smulV_length, hf, vadd_length _ _ l1.symm]

lemma rk4Formula_length (y : Vec) (t h : ℚ) (f : DerivFn)
    (hf : ∀ v s, (f v s).length = v.length) :
    (rk4Formula y t h f).length = y.length := by
  simp only [rk4Formula, vadd, divS, smulV, List.length_zipWith,
    List.length_map, hf]
  omega

/-- Under a dimension-preserving derivative function, `rk4` succeeds and
computes the rk4 formula. -/
lemma rk4_run (y : Vec) (t h : ℚ) (f : DerivFn)
    (hf : ∀ v s, (f v s).length = v.length) :
    rk4 y t h f = some (rk4Formula y t h f) := by
  rw [rk4]
  rw [addV_of_length]
  swap
  · simp only [divS_length, smulV_length, hf]
  simp only [Option.bind_eq_bind', Option.some_bind]
  rw [addV_of_length]
  swap
  · simp only [vadd, divS, smulV, List.length_zipWith, List.length_map, hf]
    all_goals omega
  simp only [Option.bind_eq_bind', Option.some_bind]
  rw [addV_of_length]
  swap
  · simp only [vadd, divS, smulV, List.length_zipWith, List.length_map, hf]
    all_goals omega
  simp only [Option.bind_eq_bind', Option.some_bind]
  rw [addV_of_length]
  swap
  · simp only [vadd, divS, smulV, List.length_zipWith, List.length_map, hf]
    all_goals omega
  simp only [Option.bind_eq_bind', Option.some_bind]
  rw [addV_of_length]
  swap
  · simp only [vadd, divS, smulV, List.length_zipWith, List.length_map, hf]
    all_goals omega
  simp only [Option.bind_eq_bind', Option.some_bind]
  rw [addV_of_length]
  swap
  · simp only [vadd, divS, smulV, List.length_zipWith, List.length_map, hf]
    all_goals omega
  simp only [Option.bind_eq_bind', Option.some_bind]
  rw [addV_of_length]
  swap
  · simp only [vadd, divS, smulV, List.length_zipWith, List.length_map, hf]
    all_goals omega
  rfl

lemma smulV_eq_mulS (c : ℚ) (v : Vec) : smulV c v = mulS v c := by
  simp only [smulV, mulS]
  exact List.map_congr_left (fun a _ => mul_comm c a)

/-- Elementwise algebra behind rk4 on a constant derivative: all four
slopes equal `h*c`, so `(k + 2k + 2k + k)/6 = k = c*h`. -/
lemma rk4_const_combine (c : Vec) (h : ℚ) :
    divS (vadd (vadd (vadd (smulV h c) (smulV 2 (smulV h c)))
      (smulV 2 (smulV h c))) (smulV h c)) 6 = mulS c h := by
  induction c with
  | nil => rfl
  | cons a l ih =>
    simp only [smulV, mulS, vadd, divS, List.map_cons,
      List.zipWith_cons_cons, List.cons.injEq] at ih ⊢
    refine ⟨by ring, ?_⟩
    simpa [smulV, mulS, vadd, divS] using ih

lemma addV_none (a b : Vec) (h1 : a.length ≠ b.length) (h2 : a.length ≠ 1)
    (h3 : b.length ≠ 1) : addV a b = none := by
  simp [addV, h1, h2, h3]

/-- C1: the rk4 stepper, for every state `y`, time `t`, step size `h`, and
dimension-preserving derivative function `f`, returns exactly
`y + (k1 + 2*k2 + 2*k3 + k4)/6` with `k1 = h*f(y,t)`,
`k2 = h*f(y + k1/2, t + h/2)`, `k3 = h*f(y + k2/2, t + h/2)`,
`k4 = h*f(y + k3, t + h)`. -/
theorem C1_rk4_computes_spec_formula (y : Vec) (t h : ℚ) (f : DerivFn)
    (hf : ∀ v s, (f v s).length = v.length) :
    rk4 y t h f = some (rk4Formula y t h f) :=
  rk4_run y t h f hf

theorem C1_rk4_computes_spec_formula_witness :
    (∀ v s, ((fun (v : Vec) (_ : ℚ) => v) v s).length = v.length) ∧
    rk4 [1, 2] 0 1 (fun v _ => v) =
      some (rk4Formula [1, 2] 0 1 (fun v _ => v)) :=
  ⟨fun _ _ => rfl,
    C1_rk4_computes_spec_formula [1, 2] 0 1 (fun v _ => v) (fun _ _ => rfl)⟩

/-- C2: evaluated at a concrete instance, the Euler driver loop as the
source writes it (`states_Euler[j+1] = Euler(states[j,:], times[j], h,
SHO)`) does not compute entry 1 by applying the stepper to its own entry
0: it feeds the stepper the foreign `states` array instead. -/
theorem C2_euler_driver_ignores_own_trajectory :
    eulerLoopTraj (fun _ => [1, 1]) [0, 0] 1 deriv_freefall 1 ≠
      (eulerLoopTraj (fun _ => [1, 1]) [0, 0] 1 deriv_freefall 0).bind
        (fun yj => Euler yj ((0 : ℚ) * 1) 1 deriv_freefall) := by
  norm_num [eulerLoopTraj, Euler, addV, mulS, vadd, deriv_freefall,
    List.replicate, List.set]

/-- C3: the Euler stepper, for every state `y`, time `t`, step size `h`,
and dimension-preserving derivative function `f`, returns exactly
`y + f(y, t) * h`. -/
theorem C3_euler_computes_spec_formula (y : Vec) (t h : ℚ) (f : DerivFn)
    (hf : ∀ v s, (f v s).length = v.length) :
    Euler y t h f = some (eulerFormula y t h f) :=
  Euler_run y t h f hf

theorem C3_euler_computes_spec_formula_witness :
    (∀ v s, ((fun (v : Vec) (_ : ℚ) => v) v s).length = v.length) ∧
    Euler [1, 2] 0 1 (fun v _ => v) =
      some (eulerFormula [1, 2] 0 1 (fun v _ => v)) :=
  ⟨fun _ _ => rfl,
    C3_euler_computes_spec_formula [1, 2] 0 1 (fun v _ => v) (fun _ _ => rfl)⟩

/-- C4: for both steppers, if the derivative function returns a vector of
the same length as its input state, the output state has the same length
as the input state. -/
theorem C4_steppers_preserve_dimension (y : Vec) (t h : ℚ) (f : DerivFn)
    (hf : ∀ v s, (f v s).length = v.length) :
    (∃ outE, Euler y t h f = some outE ∧ outE.length = y.length) ∧
    (∃ outR, rk4 y t h f = some outR ∧ outR.length = y.length) :=
  ⟨⟨_, Euler_run y t h f hf, eulerFormula_length y t h f hf⟩,
   ⟨_, rk4_run y t h f hf, rk4Formula_length y t h f hf⟩⟩

theorem C4_steppers_preserve_dimension_witness :
    (∀ v s, ((fun (v : Vec) (_ : ℚ) => v) v s).length = v.length) ∧
    ((∃ outE, Euler [1, 2] 0 1 (fun v _ => v) = some outE ∧
        outE.length = ([1, 2] : Vec).length) ∧
     (∃ outR, rk4 [1, 2] 0 1 (fun v _ => v) = some outR ∧
        outR.length = ([1, 2] : Vec).length)) :=
  ⟨fun _ _ => rfl,
    C4_steppers_preserve_dimension [1, 2] 0 1 (fun v _ => v) (fun _ _ => rfl)⟩

/-- C5 counterexample: neither stepper checks the step size; at `h = -1`
(so `h <= 0`) both Euler and rk4 return a computed next state rather than
failing. -/
theorem C5_counterexample_no_step_size_check :
    Euler [0] 0 (-1) (fun v _ => v) = some [0] ∧
    rk4 [0] 0 (-1) (fun v _ => v) = some [0] := by
  norm_num [Euler, rk4, addV, mulS, smulV, divS, vadd]

/-- C5 amended: the steppers perform no step-size validation: for every
rational `h` (including `h <= 0`) and dimension-preserving derivative
function, both Euler and rk4 return a next state. -/
theorem C5_steppers_never_reject_h (y : Vec) (t h : ℚ) (f : DerivFn)
    (hf : ∀ v s, (f v s).length = v.length) :
    (Euler y t h f).isSome ∧ (rk4 y t h f).isSome := by
  rw [Euler_run y t h f hf, rk4_run y t h f hf]
  exact ⟨rfl, rfl⟩

theorem C5_steppers_never_reject_h_witness :
    (∀ v s, ((fun (v : Vec) (_ : ℚ) => v) v s).length = v.length) ∧
    ((Euler [0] 0 (-1) (fun v _ => v)).isSome ∧
     (rk4 [0] 0 (-1) (fun v _ => v)).isSome) :=
  ⟨fun _ _ => rfl,
    C5_steppers_never_reject_h [0] 0 (-1) (fun v _ => v) (fun _ _ => rfl)⟩

/-- C6 counterexample: a derivative function whose output length (1)
differs from the state length (2) does not make the steppers fail: numpy
broadcasting silently accepts it and both steppers return a state. -/
theorem C6_counterexample_broadcast_swallows_mismatch :
    Euler [0, 0] 0 1 (fun _ _ => [5]) = some [5, 5] ∧
    rk4 [0, 0] 0 1 (fun _ _ => [5]) = some [5, 5] := by
  norm_num [Euler, rk4, addV, mulS, smulV, divS, vadd]

/-- C6 amended: the steppers have no explicit dimension check; a
derivative output length that differs from the state length surfaces as
an elementwise-arithmetic failure only when it is not broadcastable
(neither length is 1), in which case both steppers error at the first
mismatched call. -/
theorem C6_nonbroadcastable_mismatch_fails (y : Vec) (t h : ℚ) (f : DerivFn)
    (h1 : (f y t).length ≠ y.length) (h2 : (f y t).length ≠ 1)
    (h3 : y.length ≠ 1) :
    Euler y t h f = none ∧ rk4 y t h f = none := by
  constructor
  · rw [Euler, addV_none]
    · rw [mulS_length]
      exact fun hc => h1 hc.symm
    · exact h3
    · rw [mulS_length]
      exact h2
  · rw [rk4, addV_none]
    · rfl
    · rw [divS_length, smulV_length]
      exact fun hc => h1 hc.symm
    · exact h3
    · rw [divS_length, smulV_length]
      exact h2

theorem C6_nonbroadcastable_mismatch_fails_witness :
    (((fun (_ : Vec) (_ : ℚ) => ([1, 2, 3] : Vec)) [0, 0] 0).length ≠
      ([0, 0] : Vec).length) ∧
    (((fun (_ : Vec) (_ : ℚ) => ([1, 2, 3] : Vec)) [0, 0] 0).length ≠ 1) ∧
    (([0, 0] : Vec).length ≠ 1) ∧
    (Euler [0, 0] 0 1 (fun _ _ => [1, 2, 3]) = none ∧
     rk4 [0, 0] 0 1 (fun _ _ => [1, 2, 3]) = none) :=
  ⟨by decide, by decide, by decide,
    C6_nonbroadcastable_mismatch_fails [0, 0] 0 1 (fun _ _ => [1, 2, 3])
      (by decide) (by decide) (by decide)⟩

/-- C7: for a constant derivative function `f(y,t) = c` with `c` of the
dimension of `y`, and any step `h > 0`, Euler, rk2 and rk4 all return the
identical output `y + c*h`. -/
theorem C7_constant_derivative_all_steppers_agree (c y : Vec) (t h : ℚ)
    (hpos : 0 < h) (hlen : c.length = y.length) :
    Euler y t h (fun _ _ => c) = some (vadd y (mulS c h)) ∧
    rk2 y t h (fun _ _ => c) = some (vadd y (mulS c h)) ∧
    rk4 y t h (fun _ _ => c) = some (vadd y (mulS c h)) := by
  have h1 : y.length = (divS (smulV h c) 2).length := by
    rw [divS_length, smulV_length, hlen]
  have h2 : y.length = (smulV h c).length := by
    rw [smulV_length, hlen]
  have h3 : (smulV h c).length = (smulV 2 (smulV h c)).length := by
    simp only [smulV_length]
  have h4 : (vadd (smulV h c) (smulV 2 (smulV h c))).length =
      (smulV 2 (smulV h c)).length := by
    rw [vadd_length _ _ h3]
    simp only [smulV_length]
  have h5 : (vadd (vadd (smulV h c) (smulV 2 (smulV h c)))
      (smulV 2 (smulV h c))).length = (smulV h c).length := by
    rw [vadd_length _ _ h4, vadd_length _ _ h3]
  have h6 : y.length = (divS (vadd (vadd (vadd (smulV h c)
      (smulV 2 (smulV h c))) (smulV 2 (smulV h c))) (smulV h c))
      6).length := by
    rw [divS_length, vadd_length _ _ h5, vadd_length _ _ h4,
      vadd_length _ _ h3, smulV_length, hlen]
  have he : y.length = (mulS c h).length := by
    rw [mulS_length, hlen]
  refine ⟨?_, ?_, ?_⟩
  · simp only [Euler]
    rw [addV_of_length _ _ he]
  · simp only [rk2, Option.bind_eq_bind']
    rw [addV_of_length _ _ h1]
    simp only [Option.some_bind]
    rw [addV_of_length _ _ h2, smulV_eq_mulS]
  · simp only [rk4, Option.bind_eq_bind']
    rw [addV_of_length _ _ h1, addV_of_length _ _ h2, addV_of_length _ _ h3]
    simp only [Option.some_bind]
    rw [addV_of_length _ _ h4]
    simp only [Option.some_bind]
    rw [addV_of_length _ _ h5]
    simp only [Option.some_bind]
    rw [addV_of_length _ _ h6, rk4_const_combine]

theorem C7_constant_derivative_all_steppers_agree_witness :
    (0 : ℚ) < 1 ∧ ([3] : Vec).length = ([2] : Vec).length ∧
    (Euler [2] 0 1 (fun _ _ => [3]) = some (vadd [2] (mulS [3] 1)) ∧
     rk2 [2] 0 1 (fun _ _ => [3]) = some (vadd [2] (mulS [3] 1)) ∧
     rk4 [2] 0 1 (fun _ _ => [3]) = some (vadd [2] (mulS [3] 1))) :=
  ⟨by norm_num, rfl,
    C7_constant_derivative_all_steppers_agree [3] [2] 0 1 (by norm_num) rfl⟩

set_option maxHeartbeats 4000000 in
/-- C8: ten applications of the rk4 stepper with step `h = 1/10` to the
free-fall derivative, starting from state `[0, 0]` at time `0`, yield
exactly `x = -49/10` and `v = -49/5` in exact rational arithmetic,
matching the analytic solution at `t = 1`. -/
theorem C8_freefall_ten_rk4_steps_exact :
    rk4Traj [0, 0] (1/10) deriv_freefall 10 = some [-49/10, -49/5] := by
  norm_num [rk4Traj, rk4, addV, mulS, vadd, smulV, divS, deriv_freefall,
    List.replicate, List.set]

/-- C9: the rk2 (midpoint) rule, under the uniform stepper signature, for
every state, time, step and dimension-preserving derivative function
returns exactly `y + k2` with `k1 = h*f(y, t)` and
`k2 = h*f(y + k1/2, t + h/2)`. -/
theorem C9_rk2_midpoint_rule (y : Vec) (t h : ℚ) (f : DerivFn)
    (hf : ∀ v s, (f v s).length = v.length) :
    rk2 y t h f = some (rk2Formula y t h f) :=
  rk2_run y t h f hf

theorem C9_rk2_midpoint_rule_witness :
    (∀ v s, ((fun (v : Vec) (_ : ℚ) => v) v s).length = v.length) ∧
    rk2 [1, 2] 0 1 (fun v _ => v) =
      some (rk2Formula [1, 2] 0 1 (fun v _ => v)) :=
  ⟨fun _ _ => rfl,
    C9_rk2_midpoint_rule [1, 2] 0 1 (fun v _ => v) (fun _ _ => rfl)⟩

/-- C10: in the friction SHO derivative, branching on the just-computed
`yp[0]` is the same as branching on the velocity component `x[1]`: for
every state `[x0, x1]` and time, `SHO` returns
`[x1, -k/m*x0 - g*mu]` when `x1 > 0` and `[x1, -k/m*x0 + g*mu]`
otherwise. -/
theorem C10_SHO_branches_on_velocity (k m g mu x0 x1 t : ℚ) :
    SHO k m g mu [x0, x1] t =
      if x1 > 0 then [x1, -k/m * x0 - g * mu]
      else [x1, -k/m * x0 + g * mu] := by
  rfl

end ODEs
